import Mathlib

/-!
# Hawck macro daemon: script registry and event dispatch

A shallow embedding of `src/MacroDaemon.cpp`.

* The daemon's mutable state is the record `MacroDaemon`; member functions become
  functions that take the state (or the part they touch) and return the new one.
* Every call that leaves the file (the Lua runtime behind `Lua::Script`, libc, libnotify,
  syslog, the socket to the input daemon, `RemoteUDevice`) is answered by a `World`, and
  the calls the claims speak about are recorded, in program order, as a list of `Call`.
* Declarations of the headers that are not among the sources (`utils.hpp`,
  `MacroDaemon.hpp`) are the fields of `Decls`.
* C++ exceptions are explicit: a function that may throw returns the state it leaves
  behind together with an `Except`.
* The three threads (main loop, file watcher, configuration listener) take
  `scripts_mtx` around every access to `scripts`; the embedding treats each locked
  region as one atomic step. Diagnostic prints to `cout` are not modelled.
-/

namespace Hawck

/-! ## Data -/

/-- The fields of `struct input_event` (linux/input.h) that the daemon reads. -/
structure input_event where
  type : Nat
  code : Nat
  value : Int
deriving DecidableEq

/-- One record received from the input daemon: the event and the keyboard it came from. -/
structure KBDAction where
  ev : input_event
  dev_id : Nat
deriving DecidableEq

/-- A `Lua::LuaError`, with the two texts the daemon reads from it. -/
structure LuaError where
  what : String
  fmtReport : String
deriving DecidableEq

/-- A `SocketError`. -/
structure SocketError where
  what : String
deriving DecidableEq

/-- A `SystemError(msg, errno)`. -/
structure SystemError where
  msg : String
  errno : Nat
deriving DecidableEq

/-- The exceptions that leave `loadScript`; all of them are `std::exception`s. -/
inductive Exception where
  | system (e : SystemError)
  | lua (e : LuaError)
deriving DecidableEq

/-- A `Lua::Script` object on the heap. `ptr` is the address `new Script()` returned, which is
what the registry stores; `L` is the state of the Lua interpreter it owns; `enabled` is the
flag behind `isEnabled()` and `setEnabled()`. -/
structure Script (σ : Type) where
  ptr : Nat
  L : σ
  enabled : Bool
deriving DecidableEq

/-- The `void` methods of `Lua::Script` that the daemon calls. -/
inductive LuaOp where
  /-- In the source: `sc->call("require", "init")` -/
  | require_init
  /-- In the source: `sc->open(&remote_udev, "udev")` -/
  | open_udev
  /-- In the source: `sc->from(path)` -/
  | from_path (path : String)
  /-- In the source: `sc->reset()` -/
  | reset
  /-- In the source: `sc->reload()` -/
  | reload
deriving DecidableEq

/-- The calls to the outside that the daemon makes, as they are recorded. -/
inductive Call where
  /-- A `void` method called on the script at `ptr`. -/
  | script (ptr : Nat) (op : LuaOp)
  /-- In the source: `sc->call<bool>("__match", value, code, type, kbd_hid)`, on the script
  at `ptr`. -/
  | call_match (ptr : Nat) (value code type : Int) (kbd_hid : String)
  /-- In the source: `lua_settop(sc->getL(), 0)` on the script at `ptr`. -/
  | lua_settop (ptr : Nat)
  | syslog (msg : String)
  /-- In the source: `notify_notification_show` of a notification with this title and text. -/
  | notification (title msg : String)
  /-- In the source: `kbd_com->recv(&action)` -/
  | recv
  /-- In the source: `remote_udev.emit(&ev)` -/
  | emit (ev : input_event)
  /-- In the source: `remote_udev.done()` -/
  | done
  /-- In the source: `kbd_srv.accept()`, with whether it returned a connection. -/
  | accept (ok : Bool)
  | usleep (usec : Nat)
  /-- In the source: `remote_udev.setConnection(kbd_com)` -/
  | setConnection
deriving DecidableEq

/-- The answers of everything outside `MacroDaemon.cpp` during one step of the daemon.

`exec` and `call_match` are the Lua runtime: they take the interpreter state of the script
and return the state after the call together with its result, where an error is the
`LuaError` the C++ wrapper throws. The handlers of the source catch `LuaError` around these
calls and `SocketError` around the socket calls, and those are the exceptions modelled. -/
structure World (σ : Type) where
  /-- In the source: `realpath(3)`; `none` is the null result. -/
  realpath : String → Option String
  errno : Nat
  /-- In the source: `Permissions::checkFile(path, policy)`. -/
  checkFile : String → String → Bool
  /-- In the source: `stat(2)` mode bits of a file. -/
  st_mode : String → Nat
  /-- In the source: `new Script()`. -/
  new_Script : Except LuaError (Script σ)
  exec : LuaOp → σ → Option LuaError × σ
  call_match : Int → Int → Int → String → σ → Except LuaError Bool × σ
  lua_gettop : σ → Int
  lua_settop : σ → Int → σ
  notify_notification_show : String → String → Bool
  /-- In the source: `kbd_com->recv(&action)`. -/
  recv : Except SocketError KBDAction
  /-- In the source: `kbdb.getID(&action.dev_id)`. -/
  getID : Nat → String
  /-- Whether `remote_udev.done()` returns or throws. -/
  done : Except SocketError Unit
  /-- How many times `kbd_srv.accept()` throws before it returns a connection. -/
  accept_failures : Nat

/-- What `MacroDaemon.cpp` uses from headers that are not among the sources.

`slot` stands for the type of `MacroDaemon::scripts`: the source uses it as a map from
`std::string` to `Lua::Script *` with unique keys (`find`, `erase(key)`, `operator[]`,
iteration over key/value pairs). The embedding keeps the entries as a list in iteration
order: erasing a key leaves the other entries in their order, and a key that is not held
yet is put at the index `slot keys name`, chosen by the container from the keys it holds
(the rank of the name for a sorted map, the length for an insertion-ordered one). What is
said about the order of the registry does not rest on this: it is said for
`loadScriptWith`, where the insertion is arbitrary. -/
structure Decls where
  pathBasename : String → String
  goodLuaFilename : String → Bool
  slot : List String → String → Nat

/-- Modelled from the spec: the declaration of `MacroDaemon::scripts` (MacroDaemon.hpp) is
missing from the sources. The spec describes the registry as a mapping with "insertion
order preserved and used as the deterministic matching order", where "a fresh load
appends": a key that is not held yet goes after all the keys held. -/
def insertionOrder : List String → String → Nat :=
  fun keys _ => keys.length

/-- The registry `MacroDaemon::scripts`, in iteration order. -/
abbrev Registry (σ : Type) := List (String × Script σ)

/-- The keys of the registry, in iteration order. -/
def keys {σ : Type} (scripts : Registry σ) : List String :=
  scripts.map Prod.fst

/-- The state of a `MacroDaemon`: its registry, its option flags, and the function-local
`static bool had_stack_leak_warning` of `runScript`. -/
structure MacroDaemon (σ : Type) where
  scripts : Registry σ
  notify_on_err : Bool
  stop_on_err : Bool
  eval_keydown : Bool
  eval_keyup : Bool
  eval_repeat : Bool
  disabled : Bool
  had_stack_leak_warning : Bool

variable {σ : Type}

/-! ## The registry container -/

/-- In the source: `scripts.find(name)`, `none` for `scripts.end()`. -/
def find (scripts : Registry σ) (name : String) : Option (Script σ) :=
  scripts.lookup name

/-- In the source: `scripts.erase(name)`. -/
def erase (scripts : Registry σ) (name : String) : Registry σ :=
  scripts.filter (fun e => e.1 != name)

/-- In the source: `scripts[name] = sc`. The value of a key that is held is overwritten where
it is, a key that is not held is inserted at the index the container chooses. -/
def assign (slot : List String → String → Nat) (scripts : Registry σ) (name : String)
    (sc : Script σ) : Registry σ :=
  if (find scripts name).isSome then
    scripts.map (fun e => if e.1 == name then (e.1, sc) else e)
  else
    scripts.take (slot (keys scripts) name) ++ (name, sc) :: scripts.drop (slot (keys scripts) name)

/-! ## Loading and unloading -/

/-- Runs `void` methods on a script one after the other, up to the first that throws.
Returns the script as the calls left it, the calls made, and the error thrown, if any. -/
def execSeq (w : World σ) : List LuaOp → Script σ → Script σ × List Call × Option LuaError
  | [], sc => (sc, [], none)
  | op :: ops, sc =>
    match w.exec op sc.L with
    | (some e, L1) => ({ sc with L := L1 }, [Call.script sc.ptr op], some e)
    | (none, L1) =>
      let r := execSeq w ops { sc with L := L1 }
      (r.1, Call.script sc.ptr op :: r.2.1, r.2.2)

/-- Lines 163-166 of `loadScript`: `new Script()`, then `call("require", "init")`,
`open(&remote_udev, "udev")` and `from(path)` on it. When one of them throws, the
`unique_ptr` destroys the new script and the error leaves `loadScript`. -/
def construct (w : World σ) (path : String) : Except LuaError (Script σ) :=
  match w.new_Script with
  | .error e => .error e
  | .ok sc =>
    match execSeq w [LuaOp.require_init, LuaOp.open_udev, LuaOp.from_path path] sc with
    | (_, _, some e) => .error e
    | (sc1, _, none) => .ok sc1

/-- In the source: `MacroDaemon::loadScript`. Returns the registry it leaves behind and
whether it returned or threw. The change of directory `xdg.cd(XDG_DATA_HOME, "scripts")`,
undone when the function is left, belongs to the world that answers `realpath`. -/
def loadScript (D : Decls) (w : World σ) (scripts : Registry σ) (rel_path : String) :
    Registry σ × Except Exception Unit :=
  let bn := D.pathBasename rel_path
  if !D.goodLuaFilename bn then
    (scripts, .ok ())
  else
    match w.realpath rel_path with
    | none => (scripts, .error (.system ⟨"Error in realpath: ", w.errno⟩))
    | some path =>
      if !w.checkFile path "frwxr-xr-x ~:*" then
        (scripts, .ok ())
      else
        match construct w path with
        | .error e => (scripts, .error (.lua e))
        | .ok sc =>
          let name := D.pathBasename rel_path
          let scripts1 := if (find scripts name).isSome then erase scripts name else scripts
          (assign D.slot scripts1 name sc, .ok ())

/-- In the source: `MacroDaemon::unloadScript`. -/
def unloadScript (D : Decls) (scripts : Registry σ) (rel_path : String) : Registry σ :=
  let name := D.pathBasename rel_path
  if (find scripts name).isSome then erase scripts name else scripts

/-! ## Running a script on an event -/

/-- In the source: `MacroDaemon::notify`. The text goes to the system log, the notification
is shown, and a second log line is written when it cannot be shown. -/
def notify (w : World σ) (title msg : String) : List Call :=
  [Call.syslog msg, Call.notification title msg] ++
    (if !w.notify_notification_show title msg then
      [Call.syslog "Notifications cannot be shown."]
    else [])

/-- What `runScript` leaves behind: the script as the call left it, the static warning flag,
the calls made, and the returned value `repeat`. -/
structure RunResult (σ : Type) where
  sc : Script σ
  had_stack_leak_warning : Bool
  calls : List Call
  repeat_ : Bool

/-- In the source: `MacroDaemon::runScript`. The `try` block is the first arm of the match, the
`catch (const LuaError &e)` block the second. -/
def runScript (w : World σ) (d : MacroDaemon σ) (sc : Script σ) (ev : input_event)
    (kbd_hid : String) : RunResult σ :=
  let call := Call.call_match sc.ptr ev.value (ev.code : Int) (ev.type : Int) kbd_hid
  match w.call_match ev.value (ev.code : Int) (ev.type : Int) kbd_hid sc.L with
  | (.ok succ, L1) =>
    if w.lua_gettop L1 != 0 then
      { sc := { sc with L := w.lua_settop L1 0 }
        had_stack_leak_warning := true
        calls := [call] ++
          (if !d.had_stack_leak_warning then
            [Call.syslog ("API misuse causing Lua stack leak of " ++
              toString (w.lua_gettop L1) ++ " elements.")]
          else []) ++ [Call.lua_settop sc.ptr]
        repeat_ := !succ }
    else
      { sc := { sc with L := L1 }
        had_stack_leak_warning := d.had_stack_leak_warning
        calls := [call]
        repeat_ := !succ }
  | (.error e, L1) =>
    { sc := { sc with L := L1, enabled := if d.stop_on_err then false else sc.enabled }
      had_stack_leak_warning := d.had_stack_leak_warning
      calls := [call] ++ (if d.notify_on_err then notify w "Lua error" e.fmtReport else []) ++
        [Call.syslog ("LUA:" ++ e.fmtReport)]
      repeat_ := true }

/-- What the matching loop leaves behind. -/
structure LoopResult (σ : Type) where
  scripts : Registry σ
  had_stack_leak_warning : Bool
  calls : List Call
  repeat_ : Bool

/-- The loop of `MacroDaemon::run` that looks for a script match (lines 339-343), over the
entries still to visit:
`if (sc->isEnabled() && !(repeat = runScript(sc, ev, kbd_hid))) break;`.
`repeat` is `true` when the loop starts and whenever it goes on to the next entry. -/
def matchScripts (w : World σ) (d : MacroDaemon σ) (ev : input_event) (kbd_hid : String) :
    Registry σ → LoopResult σ
  | [] => ⟨[], d.had_stack_leak_warning, [], true⟩
  | (name, sc) :: rest =>
    if sc.enabled then
      let r := runScript w d sc ev kbd_hid
      if !r.repeat_ then
        ⟨(name, r.sc) :: rest, r.had_stack_leak_warning, r.calls, false⟩
      else
        let r2 := matchScripts w { d with had_stack_leak_warning := r.had_stack_leak_warning }
          ev kbd_hid rest
        ⟨(name, r.sc) :: r2.scripts, r2.had_stack_leak_warning, r.calls ++ r2.calls, r2.repeat_⟩
    else
      let r2 := matchScripts w d ev kbd_hid rest
      ⟨(name, sc) :: r2.scripts, r2.had_stack_leak_warning, r2.calls, r2.repeat_⟩

/-! ## The main loop -/

/-- The retry loop of `MacroDaemon::getConnection`: `accept` throws `n` times, each
followed by a wait of 0.1 seconds, and then returns a connection. -/
def acceptLoop : Nat → List Call
  | 0 => [Call.accept true, Call.syslog "Got a connection"]
  | n + 1 => [Call.accept false, Call.usleep 100000] ++ acceptLoop n

/-- In the source: `MacroDaemon::getConnection`. -/
def getConnection (w : World σ) : List Call :=
  [Call.syslog "Listening for a connection ..."] ++ acceptLoop w.accept_failures ++
    [Call.setConnection]

/-- The `catch (const SocketError& e)` block of the main loop. -/
def handleSocketError (w : World σ) (e : SocketError) : List Call :=
  [Call.syslog ("Socket error: " ++ e.what)] ++
    notify w "Socket error" "Connection to InputD timed out, reconnecting ..." ++
    getConnection w

/-- Whether the main loop looks for a script match for this event (lines 334-335). -/
def evalEvent (d : MacroDaemon σ) (ev : input_event) : Bool :=
  !((!d.eval_keydown && ev.value == 1) || (!d.eval_keyup && ev.value == 0)) && !d.disabled

/-- Lines 329-344 of `MacroDaemon::run`: `repeat` starts as `true`, and the scripts are
tried only when the event is to be evaluated. -/
def lookForMatch (w : World σ) (d : MacroDaemon σ) (ev : input_event) (kbd_hid : String) :
    LoopResult σ :=
  if evalEvent d ev then matchScripts w d ev kbd_hid d.scripts
  else ⟨d.scripts, d.had_stack_leak_warning, [], true⟩

/-- Modelled from the spec: `RemoteUDevice` is missing from the sources. The spec describes
the output device as a writer "accepting the same raw-event shape as the input transport,
plus an explicit flush/done marker": `emit` adds the event to the batch and returns, `done`
flushes the batch over the connection, where a transport failure is a `SocketError`. -/
def remote_udev_done (w : World σ) : Except SocketError Unit :=
  w.done

/-- One pass through the body of `while (macrod_main_loop_running)` in `MacroDaemon::run`
(lines 328-355). Returns the daemon state and the calls made. -/
def runIteration (w : World σ) (d : MacroDaemon σ) : MacroDaemon σ × List Call :=
  match w.recv with
  | .error e => (d, [Call.recv] ++ handleSocketError w e)
  | .ok action =>
    let ev := action.ev
    let kbd_hid := w.getID action.dev_id
    let r := lookForMatch w d ev kbd_hid
    let d1 := { d with scripts := r.scripts, had_stack_leak_warning := r.had_stack_leak_warning }
    let calls := [Call.recv] ++ r.calls ++ (if r.repeat_ then [Call.emit ev] else []) ++
      [Call.done]
    match remote_udev_done w with
    | .ok _ => (d1, calls)
    | .error e => (d1, calls ++ handleSocketError w e)

/-- The main loop of `MacroDaemon::run` over its first passes, one `World` for each.
`macrod_main_loop_running` is set to `true` before the loop and never written again, so
the loop does not end by itself. -/
def mainLoop : List (World σ) → MacroDaemon σ → MacroDaemon σ × List Call
  | [], d => (d, [])
  | w :: ws, d =>
    let r := runIteration w d
    let r2 := mainLoop ws r.1
    (r2.1, r.2 ++ r2.2)

/-! ## Reloading every script -/

/-- The calls in the `try` block of `reloadAll` after `setEnabled(true)`: `sc->reset()`,
`sc->call("require", "init")`, `sc->open(&remote_udev, "udev")`, `sc->reload()`. -/
def reloadSeq : List LuaOp :=
  [LuaOp.reset, LuaOp.require_init, LuaOp.open_udev, LuaOp.reload]

/-- The body of the loop of `MacroDaemon::reloadAll` for one script (lines 255-264):
`setEnabled(true)`, the calls of `reloadSeq`, and `setEnabled(false)` in the
`catch (const LuaError& e)` block. -/
def reloadScript (w : World σ) (sc : Script σ) : Script σ × List Call :=
  match execSeq w reloadSeq { sc with enabled := true } with
  | (sc1, calls, none) => (sc1, calls)
  | (sc1, calls, some e) =>
    ({ sc1 with enabled := false },
      calls ++ [Call.syslog ("Error when reloading script: " ++ e.what)])

/-- In the source: `MacroDaemon::reloadAll`, the handler of the `keymap` option. -/
def reloadAll (w : World σ) : Registry σ → Registry σ × List Call
  | [] => ([], [])
  | (name, sc) :: rest =>
    let r := reloadScript w sc
    let r2 := reloadAll w rest
    ((name, r.1) :: r2.1, r.2 ++ r2.2)

/-! ## The file watcher -/

/-- The fields of an `FSEvent` that the handler reads. -/
structure FSEvent where
  mask : Nat
  name : String
  path : String
  st_mode : Nat
deriving DecidableEq

/-- In the source: `IN_MODIFY` of sys/inotify.h. -/
def IN_MODIFY : Nat := 0x00000002
/-- In the source: `IN_CREATE` of sys/inotify.h. -/
def IN_CREATE : Nat := 0x00000100
/-- In the source: `IN_DELETE` of sys/inotify.h. -/
def IN_DELETE : Nat := 0x00000200

/-- In the source: `S_ISDIR` of sys/stat.h. -/
def S_ISDIR (m : Nat) : Bool :=
  m &&& 0o170000 == 0o040000

/-- What the handler given to `fsw.asyncWatch` leaves behind: the registry, the exception
its `catch (exception &e)` block caught, if any, and the value it returned. -/
structure WatchResult (σ : Type) where
  scripts : Registry σ
  caught : Option Exception
  ret : Bool

/-- The handler given to `fsw.asyncWatch` in `MacroDaemon::run` (lines 298-319). -/
def watchHandler (D : Decls) (w : World σ) (scripts : Registry σ) (ev : FSEvent) :
    WatchResult σ :=
  let r : Registry σ × Except Exception Unit :=
    if ev.mask &&& IN_DELETE != 0 then
      (unloadScript D scripts ev.name, .ok ())
    else if ev.mask &&& IN_MODIFY != 0 then
      if !S_ISDIR ev.st_mode then
        loadScript D w (unloadScript D scripts (D.pathBasename ev.path)) ev.path
      else (scripts, .ok ())
    else if ev.mask &&& IN_CREATE != 0 then
      loadScript D w scripts ev.path
    else (scripts, .ok ())
  match r.2 with
  | .ok _ => ⟨r.1, none, true⟩
  | .error e => ⟨r.1, some e, true⟩

/-! ## Sequences of registry operations -/

/-- One operation on the registry, with the world it runs in. -/
inductive Op (σ : Type) where
  | load (w : World σ) (rel_path : String)
  | unload (rel_path : String)
  | reloadAll (w : World σ)

/-- The registry after one operation. -/
def Op.apply (D : Decls) (scripts : Registry σ) : Op σ → Registry σ
  | .load w rel_path => (loadScript D w scripts rel_path).1
  | .unload rel_path => unloadScript D scripts rel_path
  | .reloadAll w => (Hawck.reloadAll w scripts).1

/-- The registry after a sequence of operations, starting from the empty registry. -/
def runOps (D : Decls) (ops : List (Op σ)) : Registry σ :=
  ops.foldl (Op.apply D) []

/-! ## Reading the recorded calls -/

/-- The scripts (by address) whose `__match` entry point was called, in call order. -/
def invoked (calls : List Call) : List Nat :=
  calls.filterMap (fun c => match c with
    | .call_match p _ _ _ _ => some p
    | _ => none)

/-- The events passed to `remote_udev.emit`, in call order. -/
def emitted (calls : List Call) : List input_event :=
  calls.filterMap (fun c => match c with
    | .emit ev => some ev
    | _ => none)

/-- How many times `remote_udev.done()` was called. -/
def doneCount (calls : List Call) : Nat :=
  calls.count Call.done

/-! ## What a pass of the matching loop may do to an entry -/

/-- The script a load of `rel_path` brings into being, following steps 1 to 4 of the spec's
`load(path)`: the base name is an accepted script name, the path resolves, the permission
validator passes the file, and the executor is constructed, bound and loaded. `none` when
the load is rejected or fails at one of these steps. -/
def loaded (D : Decls) (w : World σ) (rel_path : String) : Option (Script σ) :=
  if D.goodLuaFilename (D.pathBasename rel_path) then
    match w.realpath rel_path with
    | none => none
    | some path =>
      if w.checkFile path "frwxr-xr-x ~:*" then
        match construct w path with
        | .ok sc => some sc
        | .error _ => none
      else none
  else none

/-- The most recent operation on `name` that was not rejected, in a history given newest
first: `none` when it is an unload (or there is none), the script constructed when it is a
load. A rejected load and `reloadAll` do not count. -/
def mostRecent (D : Decls) (name : String) : List (Op σ) → Option (Script σ)
  | [] => none
  | .load w rel_path :: earlier =>
    if D.pathBasename rel_path = name then
      match loaded D w rel_path with
      | some sc => some sc
      | none => mostRecent D name earlier
    else mostRecent D name earlier
  | .unload rel_path :: earlier =>
    if D.pathBasename rel_path = name then none else mostRecent D name earlier
  | .reloadAll _ :: earlier => mostRecent D name earlier

/-- Modelled from the spec: `Permissions::checkFile` is missing from the sources. The spec
gives the policy for script files as "owner:rwx, group:rx, other:rx (or stricter)": a file
whose mode has the group-write bit (020) or the other-write bit (002) does not pass. -/
def PermissionGate (w : World σ) : Prop :=
  ∀ path, w.st_mode path &&& 0o022 ≠ 0 → w.checkFile path "frwxr-xr-x ~:*" = false

/-! ## The registry order, for any container

The type of `MacroDaemon::scripts` is declared in `MacroDaemon.hpp`, which is missing from
the sources. For what is said about the order of the registry nothing is assumed about
it: the insertion of a key that is not held is an arbitrary function `ins`, which gives the
entries in iteration order after the insertion from the entries before it, the key and the
value. It may put the new entry anywhere and may move the other entries (a sorted map, a
hashed map that rehashes, an insertion-ordered map). -/

/-- In the source: `scripts[name] = sc`, for any container. The value of a key that is held
is overwritten where it is; a key that is not held is inserted by `ins`. -/
def assignWith (ins : Registry σ → String → Script σ → Registry σ) (scripts : Registry σ)
    (name : String) (sc : Script σ) : Registry σ :=
  if (find scripts name).isSome then
    scripts.map (fun e => if e.1 == name then (e.1, sc) else e)
  else
    ins scripts name sc

/-- In the source: `MacroDaemon::loadScript`, for any container: the function `loadScript`
above with `assignWith ins` for `scripts[name] = sc.release()`. -/
def loadScriptWith (ins : Registry σ → String → Script σ → Registry σ) (D : Decls)
    (w : World σ) (scripts : Registry σ) (rel_path : String) :
    Registry σ × Except Exception Unit :=
  let bn := D.pathBasename rel_path
  if !D.goodLuaFilename bn then
    (scripts, .ok ())
  else
    match w.realpath rel_path with
    | none => (scripts, .error (.system ⟨"Error in realpath: ", w.errno⟩))
    | some path =>
      if !w.checkFile path "frwxr-xr-x ~:*" then
        (scripts, .ok ())
      else
        match construct w path with
        | .error e => (scripts, .error (.lua e))
        | .ok sc =>
          let name := D.pathBasename rel_path
          let scripts1 := if (find scripts name).isSome then erase scripts name else scripts
          (assignWith ins scripts1 name sc, .ok ())

/-- The insertion that `assign` makes for a key that is not held: at the index `slot`. -/
def insertAt (slot : List String → String → Nat) (scripts : Registry σ) (name : String)
    (sc : Script σ) : Registry σ :=
  scripts.take (slot (keys scripts) name) ++ (name, sc) :: scripts.drop (slot (keys scripts) name)

/-- The error raised by a script in state 2. -/
def sampleError : LuaError :=
  ⟨"attempt to call a nil value", "init.lua:1: attempt to call a nil value"⟩

/-- A key-down of key 30 (`KEY_A`) from keyboard 0. -/
def keyDown : KBDAction := ⟨⟨1, 30, 1⟩, 0⟩

/-- A key-up of key 30 (`KEY_A`) from keyboard 0. -/
def keyUp : KBDAction := ⟨⟨1, 30, 0⟩, 0⟩

/-- The sample world: every path resolves to itself, only files under `/tmp/` fail the
permission check, `new Script()` returns a script at address 7 in state 0, and a key-down
is received. -/
def sampleWorld : World Nat where
  realpath := fun p => some p
  errno := 2
  checkFile := fun path _ => !("/tmp/".data.isPrefixOf path.data)
  st_mode := fun path => if "/tmp/".data.isPrefixOf path.data then 0o100775 else 0o100755
  new_Script := .ok ⟨7, 0, true⟩
  exec := fun _ L => if L = 2 then (some sampleError, L) else (none, L)
  call_match := fun _ _ _ _ L =>
    if L = 1 then (.ok true, L) else if L = 2 then (.error sampleError, L) else (.ok false, L)
  lua_gettop := fun L => if L = 3 then 1 else 0
  lua_settop := fun L _ => L
  notify_notification_show := fun _ _ => true
  recv := .ok keyDown
  getID := fun _ => "kbd0"
  done := .ok ()
  accept_failures := 0

/-- A daemon with the flags of the constructor (`notify_on_err`, the three `eval_` flags
set; `stop_on_err`, `disabled` clear) and the given registry. -/
def sampleDaemon (scripts : Registry Nat) : MacroDaemon Nat :=
  ⟨scripts, true, false, true, true, true, false, false⟩

/-- The characters after the last `/` of a path. -/
def baseChars : List Char → List Char
  | [] => []
  | c :: cs => if '/' ∈ cs then baseChars cs else if c = '/' then cs else c :: cs

/-- The declarations used for evaluation: the base name is what follows the last `/`,
a good file name ends in `.lua`, and the container is the insertion-ordered one. -/
def sampleDecls : Decls where
  pathBasename := fun p => String.mk (baseChars p.data)
  goodLuaFilename := fun n => ".lua".data.isSuffixOf n.data
  slot := insertionOrder

/-- Three enabled scripts: `a.lua` does not consume, `b.lua` and `c.lua` consume. -/
def threeScripts : Registry Nat :=
  [("a.lua", ⟨10, 0, true⟩), ("b.lua", ⟨11, 1, true⟩), ("c.lua", ⟨12, 1, true⟩)]

/-- Three enabled scripts: `a.lua` does not consume, `b.lua` raises an error, `c.lua`
does not consume. -/
def failingScripts : Registry Nat :=
  [("a.lua", ⟨10, 0, true⟩), ("b.lua", ⟨11, 2, true⟩), ("c.lua", ⟨12, 0, true⟩)]

/-- A history of registry operations: `a.lua` and `b.lua` are loaded, `a.lua` is unloaded,
a load of a group-writable `b.lua` is rejected, every script is reloaded, and `a.lua` is
loaded again, as the script object at address 8. -/
def sampleOps : List (Op Nat) :=
  [.load sampleWorld "/s/a.lua",
   .load { sampleWorld with new_Script := .ok ⟨9, 0, true⟩ } "/s/b.lua",
   .unload "a.lua",
   .load { sampleWorld with new_Script := .ok ⟨5, 0, true⟩ } "/tmp/b.lua",
   .reloadAll sampleWorld,
   .load { sampleWorld with new_Script := .ok ⟨8, 0, true⟩ } "/s/a.lua"]

/-- A file-system event with the given mask for the regular file `/s/a.lua`. -/
def fileEvent (mask : Nat) : FSEvent :=
  ⟨mask, "a.lua", "/s/a.lua", 0o100755⟩

/-- A modify event for the directory `/s/b.lua`. -/
def dirEvent : FSEvent :=
  ⟨IN_MODIFY, "b.lua", "/s/b.lua", 0o040755⟩

/-! ## Lemmas on the recorded calls -/

theorem invoked_append (a b : List Call) : invoked (a ++ b) = invoked a ++ invoked b := by
  simp [invoked]

theorem emitted_append (a b : List Call) : emitted (a ++ b) = emitted a ++ emitted b := by
  simp [emitted]

theorem doneCount_append (a b : List Call) : doneCount (a ++ b) = doneCount a + doneCount b := by
  simp [doneCount]

theorem notify_quiet (w : World σ) (title msg : String) :
    invoked (notify w title msg) = [] ∧ emitted (notify w title msg) = [] ∧
      doneCount (notify w title msg) = 0 := by
  unfold notify
  cases w.notify_notification_show title msg <;> simp [invoked, emitted, doneCount]

theorem acceptLoop_quiet (n : Nat) :
    invoked (acceptLoop n) = [] ∧ emitted (acceptLoop n) = [] ∧ doneCount (acceptLoop n) = 0 := by
  induction n with
  | zero => simp [acceptLoop, invoked, emitted, doneCount]
  | succ n ih =>
    obtain ⟨h1, h2, h3⟩ := ih
    simp only [acceptLoop, invoked_append, emitted_append, doneCount_append, h1, h2, h3]
    simp [invoked, emitted, doneCount]

theorem handleSocketError_quiet (w : World σ) (e : SocketError) :
    invoked (handleSocketError w e) = [] ∧ emitted (handleSocketError w e) = [] ∧
      doneCount (handleSocketError w e) = 0 := by
  obtain ⟨n1, n2, n3⟩ := notify_quiet w "Socket error"
    "Connection to InputD timed out, reconnecting ..."
  obtain ⟨a1, a2, a3⟩ := acceptLoop_quiet w.accept_failures
  simp only [handleSocketError, getConnection, invoked_append, emitted_append, doneCount_append,
    n1, n2, n3, a1, a2, a3]
  simp [invoked, emitted, doneCount]

theorem runScript_calls (w : World σ) (d : MacroDaemon σ) (sc : Script σ) (ev : input_event)
    (hid : String) :
    invoked (runScript w d sc ev hid).calls = [sc.ptr] ∧
      emitted (runScript w d sc ev hid).calls = [] ∧
      doneCount (runScript w d sc ev hid).calls = 0 := by
  unfold runScript
  rcases hc : w.call_match ev.value (ev.code : Int) (ev.type : Int) hid sc.L with ⟨res, L1⟩
  cases res with
  | ok succ =>
    by_cases hl : w.lua_gettop L1 = 0
    · simp [hl, invoked, emitted, doneCount]
    · cases hw : d.had_stack_leak_warning <;> simp [hl, hw, invoked, emitted, doneCount]
  | error e =>
    obtain ⟨n1, n2, n3⟩ := notify_quiet w "Lua error" e.fmtReport
    cases hn : d.notify_on_err
    · simp [invoked, emitted, doneCount]
    · simp only [hn, if_true, invoked_append, emitted_append, doneCount_append, n1, n2, n3]
      simp [invoked, emitted, doneCount]

/-- The matching loop over `pre ++ rest`, when the part over `pre` ends without a match:
it goes on over `rest` with the warning flag the first part left. -/
theorem matchScripts_append (w : World σ) (ev : input_event) (hid : String)
    (pre rest : Registry σ) :
    ∀ (d : MacroDaemon σ), (matchScripts w d ev hid pre).repeat_ = true →
      matchScripts w d ev hid (pre ++ rest) =
        ⟨(matchScripts w d ev hid pre).scripts ++
            (matchScripts w { d with had_stack_leak_warning :=
              (matchScripts w d ev hid pre).had_stack_leak_warning } ev hid rest).scripts,
          (matchScripts w { d with had_stack_leak_warning :=
              (matchScripts w d ev hid pre).had_stack_leak_warning } ev hid rest).had_stack_leak_warning,
          (matchScripts w d ev hid pre).calls ++
            (matchScripts w { d with had_stack_leak_warning :=
              (matchScripts w d ev hid pre).had_stack_leak_warning } ev hid rest).calls,
          (matchScripts w { d with had_stack_leak_warning :=
              (matchScripts w d ev hid pre).had_stack_leak_warning } ev hid rest).repeat_⟩ := by
  induction pre with
  | nil => intro d _; simp [matchScripts]
  | cons e pre ih =>
    intro d h
    obtain ⟨name, sc⟩ := e
    rw [List.cons_append]
    simp only [matchScripts] at h ⊢
    by_cases hen : sc.enabled = true
    · simp only [hen, if_true] at h ⊢
      by_cases hrep : (runScript w d sc ev hid).repeat_ = true
      · simp only [hrep, Bool.not_true, Bool.false_eq_true, if_false] at h ⊢
        rw [ih _ h]
        simp
      · simp [hrep] at h
    · simp only [hen, if_false, Bool.false_eq_true] at h ⊢
      rw [ih _ h]
      simp

theorem matchScripts_quiet (w : World σ) (ev : input_event) (hid : String)
    (scripts : Registry σ) :
    ∀ (d : MacroDaemon σ), emitted (matchScripts w d ev hid scripts).calls = [] ∧
      doneCount (matchScripts w d ev hid scripts).calls = 0 := by
  induction scripts with
  | nil => intro d; simp [matchScripts, emitted, doneCount]
  | cons e rest ih =>
    intro d
    obtain ⟨name, sc⟩ := e
    obtain ⟨_, r2, r3⟩ := runScript_calls w d sc ev hid
    simp only [matchScripts]
    split
    · split
      · exact ⟨r2, r3⟩
      · obtain ⟨i1, i2⟩ := ih { d with had_stack_leak_warning :=
          (runScript w d sc ev hid).had_stack_leak_warning }
        simp [emitted_append, doneCount_append, r2, r3, i1, i2]
    · exact ih d

/-- One pass of the main loop that received an event: what it leaves behind, read off the
result of the search for a match. -/
theorem runIteration_recv (w : World σ) (d : MacroDaemon σ) (action : KBDAction)
    (hrecv : w.recv = .ok action) :
    (runIteration w d).1.scripts =
        (lookForMatch w d action.ev (w.getID action.dev_id)).scripts ∧
      invoked (runIteration w d).2 =
        invoked (lookForMatch w d action.ev (w.getID action.dev_id)).calls ∧
      emitted (runIteration w d).2 =
        (if (lookForMatch w d action.ev (w.getID action.dev_id)).repeat_ then [action.ev]
          else []) ∧
      doneCount (runIteration w d).2 = 1 := by
  have hq : emitted (lookForMatch w d action.ev (w.getID action.dev_id)).calls = [] ∧
      doneCount (lookForMatch w d action.ev (w.getID action.dev_id)).calls = 0 := by
    unfold lookForMatch
    split
    · exact matchScripts_quiet w action.ev (w.getID action.dev_id) d.scripts d
    · simp [emitted, doneCount]
  obtain ⟨q1, q2⟩ := hq
  unfold runIteration
  rw [hrecv]
  simp only [remote_udev_done]
  cases hd : w.done with
  | ok u =>
    simp only [invoked_append, emitted_append, doneCount_append, q1, q2]
    cases (lookForMatch w d action.ev (w.getID action.dev_id)).repeat_ <;>
      simp [invoked, emitted, doneCount]
  | error e =>
    obtain ⟨s1, s2, s3⟩ := handleSocketError_quiet w e
    simp only [invoked_append, emitted_append, doneCount_append, q1, q2, s1, s2, s3]
    cases (lookForMatch w d action.ev (w.getID action.dev_id)).repeat_ <;>
      simp [invoked, emitted, doneCount]

/-- Every script the matching loop calls is one of the entries it visits. -/
theorem matchScripts_invoked_mem (w : World σ) (ev : input_event) (hid : String)
    (scripts : Registry σ) :
    ∀ (d : MacroDaemon σ), ∀ p ∈ invoked (matchScripts w d ev hid scripts).calls,
      ∃ e ∈ scripts, e.2.ptr = p := by
  induction scripts with
  | nil => intro d p hp; simp [matchScripts, invoked] at hp
  | cons e rest ih =>
    intro d p hp
    obtain ⟨name, sc⟩ := e
    obtain ⟨r1, _, _⟩ := runScript_calls w d sc ev hid
    simp only [matchScripts] at hp
    split at hp
    · split at hp
      · rw [r1] at hp
        exact ⟨(name, sc), by simp, (List.mem_singleton.1 hp).symm⟩
      · rw [invoked_append, r1] at hp
        rcases List.mem_append.1 hp with h | h
        · exact ⟨(name, sc), by simp, (List.mem_singleton.1 h).symm⟩
        · obtain ⟨e, he, hpe⟩ := ih _ p h
          exact ⟨e, List.mem_cons_of_mem _ he, hpe⟩
    · obtain ⟨e, he, hpe⟩ := ih _ p hp
      exact ⟨e, List.mem_cons_of_mem _ he, hpe⟩

/-! ## Claims on the dispatch loop -/

/-- C1. First match wins: when the event is evaluated, the loop has reached an enabled
script `sc` (the entries `pre` before it did not consume the event) and `runScript` on
`sc` returns `repeat = false`, then the `__match` calls of this pass are those made for
`pre` followed by the one on `sc`, every script called is `sc` or an entry of `pre`, the
entries `post` after `sc` are left as they were, and nothing is passed to
`remote_udev.emit`. -/
theorem first_match_wins (w : World σ) (d : MacroDaemon σ) (action : KBDAction)
    (pre post : Registry σ) (name : String) (sc : Script σ)
    (hrecv : w.recv = .ok action)
    (heval : evalEvent d action.ev = true)
    (hscripts : d.scripts = pre ++ (name, sc) :: post)
    (hreach : (matchScripts w d action.ev (w.getID action.dev_id) pre).repeat_ = true)
    (henabled : sc.enabled = true)
    (hconsumed : (runScript w
      { d with had_stack_leak_warning :=
        (matchScripts w d action.ev (w.getID action.dev_id) pre).had_stack_leak_warning }
      sc action.ev (w.getID action.dev_id)).repeat_ = false) :
    invoked (runIteration w d).2 =
        invoked (matchScripts w d action.ev (w.getID action.dev_id) pre).calls ++ [sc.ptr] ∧
      (∀ p ∈ invoked (runIteration w d).2, p = sc.ptr ∨ ∃ e ∈ pre, e.2.ptr = p) ∧
      (runIteration w d).1.scripts =
        (matchScripts w d action.ev (w.getID action.dev_id) pre).scripts ++
          (name, (runScript w
            { d with had_stack_leak_warning :=
              (matchScripts w d action.ev (w.getID action.dev_id) pre).had_stack_leak_warning }
            sc action.ev (w.getID action.dev_id)).sc) :: post ∧
      emitted (runIteration w d).2 = [] := by
  obtain ⟨i1, i2, i3, _⟩ := runIteration_recv w d action hrecv
  have hloop : lookForMatch w d action.ev (w.getID action.dev_id) =
      matchScripts w d action.ev (w.getID action.dev_id) (pre ++ (name, sc) :: post) := by
    simp [lookForMatch, heval, hscripts]
  rw [hloop, matchScripts_append w action.ev (w.getID action.dev_id) pre _ d hreach] at i1 i2 i3
  obtain ⟨r1, _, _⟩ := runScript_calls w
    { d with had_stack_leak_warning :=
      (matchScripts w d action.ev (w.getID action.dev_id) pre).had_stack_leak_warning }
    sc action.ev (w.getID action.dev_id)
  simp only [matchScripts, henabled, if_true, hconsumed, Bool.not_false, invoked_append,
    r1] at i1 i2 i3
  refine ⟨i2, ?_, i1, by simpa using i3⟩
  intro p hp
  rw [i2] at hp
  rcases List.mem_append.1 hp with h | h
  · exact Or.inr (matchScripts_invoked_mem w action.ev (w.getID action.dev_id) pre d p h)
  · exact Or.inl (by simpa using h)

/-- C2. Skip path: when `disabled` is set, or the event is a key-down (value 1) and
`eval_keydown` is off, or it is a key-up (value 0) and `eval_keyup` is off, the pass calls
no `__match` entry point, leaves the registry as it was, and passes the received event,
unchanged, to `remote_udev.emit` exactly once. -/
theorem skip_path (w : World σ) (d : MacroDaemon σ) (action : KBDAction)
    (hrecv : w.recv = .ok action)
    (hskip : d.disabled = true ∨ (action.ev.value = 1 ∧ d.eval_keydown = false) ∨
      (action.ev.value = 0 ∧ d.eval_keyup = false)) :
    invoked (runIteration w d).2 = [] ∧
      emitted (runIteration w d).2 = [action.ev] ∧
      (runIteration w d).1.scripts = d.scripts := by
  obtain ⟨i1, i2, i3, _⟩ := runIteration_recv w d action hrecv
  have heval : evalEvent d action.ev = false := by
    unfold evalEvent
    rcases hskip with h | ⟨hv, h⟩ | ⟨hv, h⟩
    · simp [h]
    · simp [h, hv]
    · simp [h, hv]
  have hloop : lookForMatch w d action.ev (w.getID action.dev_id) =
      ⟨d.scripts, d.had_stack_leak_warning, [], true⟩ := by
    simp [lookForMatch, heval]
  rw [hloop] at i1 i2 i3
  exact ⟨by simpa [invoked] using i2, by simpa using i3, i1⟩

/-- Witness for C1: with `a.lua` (does not consume), `b.lua` (consumes) and `c.lua` in the
registry, a key-down leads to `__match` calls on `a.lua` and `b.lua` only, and to no
`emit`. -/
theorem first_match_wins_witness :
    evalEvent (sampleDaemon threeScripts) keyDown.ev = true ∧
      (runScript sampleWorld (sampleDaemon threeScripts) ⟨11, 1, true⟩ keyDown.ev "kbd0").repeat_
        = false ∧
      invoked (runIteration sampleWorld (sampleDaemon threeScripts)).2 = [10, 11] ∧
      (runIteration sampleWorld (sampleDaemon threeScripts)).1.scripts = threeScripts ∧
      emitted (runIteration sampleWorld (sampleDaemon threeScripts)).2 = [] := by
  have h := first_match_wins sampleWorld (sampleDaemon threeScripts) keyDown
    [("a.lua", ⟨10, 0, true⟩)] [("c.lua", ⟨12, 1, true⟩)] "b.lua" ⟨11, 1, true⟩
    (by rfl) (by decide) (by rfl) (by decide) (by rfl) (by decide)
  exact ⟨by decide, by decide, h.1.trans (by decide), h.2.2.1.trans (by decide), h.2.2.2⟩

/-- Witness for C2: with `eval_keydown` off, a key-down is passed to `emit` once and no
script is called, although the registry holds a script that would consume it. -/
theorem skip_path_witness :
    invoked (runIteration sampleWorld
        { sampleDaemon threeScripts with eval_keydown := false }).2 = [] ∧
      emitted (runIteration sampleWorld
        { sampleDaemon threeScripts with eval_keydown := false }).2 = [keyDown.ev] ∧
      (runIteration sampleWorld
        { sampleDaemon threeScripts with eval_keydown := false }).1.scripts = threeScripts :=
  skip_path sampleWorld { sampleDaemon threeScripts with eval_keydown := false } keyDown
    (by rfl) (Or.inr (Or.inl ⟨by decide, by rfl⟩))

/-- C3. Fail-open on a script error: when the loop has reached an enabled script `sc`
whose `__match` call raises a `LuaError`, `runScript` returns `repeat = true` (as a value:
the error does not leave it), the loop goes on over the entries `post` after `sc`, with
the same flags, so that the pass calls `__match` for `pre`, for `sc` and then for what the
loop calls in `post`; when nothing in `post` consumes the event it is passed to `emit`
once; and the main loop goes on with its next pass from the state this pass left. -/
theorem fail_open (w : World σ) (d : MacroDaemon σ) (action : KBDAction)
    (pre post : Registry σ) (name : String) (sc : Script σ) (e : LuaError) (L1 : σ)
    (ws : List (World σ))
    (hrecv : w.recv = .ok action)
    (heval : evalEvent d action.ev = true)
    (hscripts : d.scripts = pre ++ (name, sc) :: post)
    (hreach : (matchScripts w d action.ev (w.getID action.dev_id) pre).repeat_ = true)
    (henabled : sc.enabled = true)
    (hraise : w.call_match action.ev.value (action.ev.code : Int) (action.ev.type : Int)
      (w.getID action.dev_id) sc.L = (.error e, L1)) :
    (runScript w
        { d with had_stack_leak_warning :=
          (matchScripts w d action.ev (w.getID action.dev_id) pre).had_stack_leak_warning }
        sc action.ev (w.getID action.dev_id)).repeat_ = true ∧
      (runIteration w d).1.scripts =
        (matchScripts w d action.ev (w.getID action.dev_id) pre).scripts ++
          (name, { sc with L := L1, enabled := if d.stop_on_err then false else sc.enabled }) ::
          (matchScripts w
            { d with had_stack_leak_warning :=
              (matchScripts w d action.ev (w.getID action.dev_id) pre).had_stack_leak_warning }
            action.ev (w.getID action.dev_id) post).scripts ∧
      invoked (runIteration w d).2 =
        invoked (matchScripts w d action.ev (w.getID action.dev_id) pre).calls ++ [sc.ptr] ++
          invoked (matchScripts w
            { d with had_stack_leak_warning :=
              (matchScripts w d action.ev (w.getID action.dev_id) pre).had_stack_leak_warning }
            action.ev (w.getID action.dev_id) post).calls ∧
      ((matchScripts w
            { d with had_stack_leak_warning :=
              (matchScripts w d action.ev (w.getID action.dev_id) pre).had_stack_leak_warning }
            action.ev (w.getID action.dev_id) post).repeat_ = true →
        emitted (runIteration w d).2 = [action.ev]) ∧
      mainLoop (w :: ws) d =
        ((mainLoop ws (runIteration w d).1).1,
          (runIteration w d).2 ++ (mainLoop ws (runIteration w d).1).2) := by
  obtain ⟨i1, i2, i3, _⟩ := runIteration_recv w d action hrecv
  have hloop : lookForMatch w d action.ev (w.getID action.dev_id) =
      matchScripts w d action.ev (w.getID action.dev_id) (pre ++ (name, sc) :: post) := by
    simp [lookForMatch, heval, hscripts]
  rw [hloop, matchScripts_append w action.ev (w.getID action.dev_id) pre _ d hreach] at i1 i2 i3
  obtain ⟨r1, _, _⟩ := runScript_calls w
    { d with had_stack_leak_warning :=
      (matchScripts w d action.ev (w.getID action.dev_id) pre).had_stack_leak_warning }
    sc action.ev (w.getID action.dev_id)
  have hrun : runScript w
      { d with had_stack_leak_warning :=
        (matchScripts w d action.ev (w.getID action.dev_id) pre).had_stack_leak_warning }
      sc action.ev (w.getID action.dev_id) =
      { sc := { sc with L := L1, enabled := if d.stop_on_err then false else sc.enabled }
        had_stack_leak_warning :=
          (matchScripts w d action.ev (w.getID action.dev_id) pre).had_stack_leak_warning
        calls := [Call.call_match sc.ptr action.ev.value (action.ev.code : Int)
            (action.ev.type : Int) (w.getID action.dev_id)] ++
          (if d.notify_on_err then notify w "Lua error" e.fmtReport else []) ++
          [Call.syslog ("LUA:" ++ e.fmtReport)]
        repeat_ := true } := by
    simp [runScript, hraise]
  have hrep := congrArg RunResult.repeat_ hrun
  have hsc := congrArg RunResult.sc hrun
  have hwarn := congrArg RunResult.had_stack_leak_warning hrun
  simp only at hrep hsc hwarn
  simp only [matchScripts, henabled, if_true, hrep, Bool.not_true, Bool.false_eq_true, if_false,
    invoked_append, r1, hsc, hwarn] at i1 i2 i3
  refine ⟨hrep, by rw [henabled]; exact i1, by simpa [List.append_assoc] using i2, ?_, rfl⟩
  intro hpost
  simpa [hpost] using i3

/-- Witness for C3: `b.lua` raises an error on a key-down; `c.lua` after it is still
called, the event is passed to `emit`, and the next pass of the main loop runs. -/
theorem fail_open_witness :
    (runScript sampleWorld (sampleDaemon failingScripts) ⟨11, 2, true⟩ keyDown.ev "kbd0").repeat_
        = true ∧
      invoked (runIteration sampleWorld (sampleDaemon failingScripts)).2 = [10, 11, 12] ∧
      emitted (runIteration sampleWorld (sampleDaemon failingScripts)).2 = [keyDown.ev] ∧
      invoked (mainLoop [sampleWorld, sampleWorld] (sampleDaemon failingScripts)).2 =
        [10, 11, 12, 10, 11, 12] := by
  have h := fail_open sampleWorld (sampleDaemon failingScripts) keyDown
    [("a.lua", ⟨10, 0, true⟩)] [("c.lua", ⟨12, 0, true⟩)] "b.lua" ⟨11, 2, true⟩ sampleError 2
    [sampleWorld] (by rfl) (by decide) (by rfl) (by decide) (by rfl) (by rfl)
  refine ⟨h.1, h.2.2.1.trans (by decide), h.2.2.2.1 (by decide), ?_⟩
  rw [h.2.2.2.2]
  decide

/-- C8. The end-of-batch marker, once for every received event: in a pass of the main loop
that received an event, `remote_udev.done()` is called exactly once and `emit` at most
once, no `emit` comes after the `done`, and when the only script of the registry consumes
the event there is no `emit` and still one `done`. -/
theorem done_once (w : World σ) (d : MacroDaemon σ) (action : KBDAction)
    (hrecv : w.recv = .ok action) :
    doneCount (runIteration w d).2 = 1 ∧
      (emitted (runIteration w d).2).length ≤ 1 ∧
      (∃ before after, (runIteration w d).2 = before ++ Call.done :: after ∧
        doneCount before = 0 ∧ emitted after = [] ∧ doneCount after = 0) ∧
      (∀ name sc, d.scripts = [(name, sc)] → evalEvent d action.ev = true →
        sc.enabled = true →
        (runScript w d sc action.ev (w.getID action.dev_id)).repeat_ = false →
        emitted (runIteration w d).2 = [] ∧ doneCount (runIteration w d).2 = 1) := by
  obtain ⟨_, _, i3, i4⟩ := runIteration_recv w d action hrecv
  refine ⟨i4, ?_, ?_, ?_⟩
  · rw [i3]
    split <;> simp
  · have hq : doneCount (lookForMatch w d action.ev (w.getID action.dev_id)).calls = 0 := by
      unfold lookForMatch
      split
      · exact (matchScripts_quiet w action.ev (w.getID action.dev_id) d.scripts d).2
      · simp [doneCount]
    have hbefore : doneCount ([Call.recv] ++
        (lookForMatch w d action.ev (w.getID action.dev_id)).calls ++
        (if (lookForMatch w d action.ev (w.getID action.dev_id)).repeat_ then
          [Call.emit action.ev] else [])) = 0 := by
      rw [doneCount_append, doneCount_append, hq]
      split <;> simp [doneCount]
    unfold runIteration
    rw [hrecv]
    simp only [remote_udev_done]
    cases hd : w.done with
    | ok u =>
      exact ⟨_, [], by simp, hbefore, by simp [emitted], by simp [doneCount]⟩
    | error e =>
      obtain ⟨_, s2, s3⟩ := handleSocketError_quiet w e
      exact ⟨_, handleSocketError w e, by simp, hbefore, s2, s3⟩
  · intro name sc hsc heval hen hcons
    have hloop : (lookForMatch w d action.ev (w.getID action.dev_id)).repeat_ = false := by
      simp [lookForMatch, heval, hsc, matchScripts, hen, hcons]
    rw [hloop] at i3
    exact ⟨by simpa using i3, i4⟩

/-- Witness for C8: the registry holds `remap.lua` alone, which consumes the key-down of
key 30; the pass calls `done` once and `emit` never. With an empty registry the key-up of
key 30 is passed to `emit` and `done` is called once. -/
theorem done_once_witness :
    doneCount (runIteration sampleWorld (sampleDaemon [("remap.lua", ⟨10, 1, true⟩)])).2 = 1 ∧
      emitted (runIteration sampleWorld (sampleDaemon [("remap.lua", ⟨10, 1, true⟩)])).2 = [] ∧
      (runIteration { sampleWorld with recv := .ok keyUp } (sampleDaemon [])).2 =
        [Call.recv, Call.emit ⟨1, 30, 0⟩, Call.done] := by
  have h := done_once sampleWorld (sampleDaemon [("remap.lua", ⟨10, 1, true⟩)]) keyDown (by rfl)
  exact ⟨h.1, (h.2.2.2 "remap.lua" ⟨10, 1, true⟩ (by rfl) (by decide) (by rfl) (by decide)).1,
    by decide⟩

/-! ## Lemmas on the registry during dispatch -/

theorem find_isSome_iff (scripts : Registry σ) (name : String) :
    (find scripts name).isSome = true ↔ name ∈ keys scripts := by
  simp only [find, List.lookup_isSome_iff, keys, List.mem_map]
  constructor
  · rintro ⟨e, he, h⟩
    exact ⟨e, he, (by simpa using h : name = e.1).symm⟩
  · rintro ⟨e, he, h⟩
    exact ⟨e, he, by simp [h]⟩

theorem find_eq_none_iff (scripts : Registry σ) (name : String) :
    find scripts name = none ↔ name ∉ keys scripts := by
  rw [← find_isSome_iff]
  cases find scripts name <;> simp

theorem keys_erase (scripts : Registry σ) (name : String) :
    keys (erase scripts name) = (keys scripts).filter (fun k => k != name) := by
  induction scripts with
  | nil => rfl
  | cons e rest ih =>
    simp only [erase, keys] at ih
    by_cases h : e.1 = name <;> simp [erase, keys, List.filter_cons, h, ih]

theorem not_mem_keys_erase (scripts : Registry σ) (name : String) :
    name ∉ keys (erase scripts name) := by
  simp [keys_erase]

theorem erase_of_not_mem (scripts : Registry σ) (name : String) (h : name ∉ keys scripts) :
    erase scripts name = scripts := by
  unfold erase
  rw [List.filter_eq_self]
  intro e he
  have : e.1 ≠ name := fun hk => h (by rw [← hk]; exact List.mem_map_of_mem Prod.fst he)
  simpa using this

/-- The guarded erase of `loadScript` and `unloadScript` is the erase itself. -/
theorem guarded_erase (scripts : Registry σ) (name : String) :
    (if (find scripts name).isSome then erase scripts name else scripts) =
      erase scripts name := by
  split
  · rfl
  · rename_i h
    rw [find_isSome_iff] at h
    exact (erase_of_not_mem scripts name h).symm

theorem find_erase_self (scripts : Registry σ) (name : String) :
    find (erase scripts name) name = none :=
  (find_eq_none_iff _ _).2 (not_mem_keys_erase scripts name)

theorem find_erase_ne (scripts : Registry σ) (name other : String) (h : other ≠ name) :
    find (erase scripts name) other = find scripts other := by
  induction scripts with
  | nil => rfl
  | cons e rest ih =>
    obtain ⟨k, sc⟩ := e
    simp only [find, erase] at ih ⊢
    by_cases hk : k = name
    · subst hk
      have hne : (other == k) = false := by simpa using h
      simp [List.filter_cons, List.lookup_cons, hne, ih]
    · by_cases ho : other = k
      · subst ho
        simp [List.filter_cons, hk]
      · have hne : (other == k) = false := by simpa using ho
        simp [List.filter_cons, hk, List.lookup_cons, hne, ih]

theorem assign_absent (slot : List String → String → Nat) (scripts : Registry σ)
    (name : String) (sc : Script σ) (h : name ∉ keys scripts) :
    assign slot scripts name sc =
      scripts.take (slot (keys scripts) name) ++
        (name, sc) :: scripts.drop (slot (keys scripts) name) := by
  have hn : ¬ (find scripts name).isSome = true := by rwa [find_isSome_iff]
  simp [assign, hn]

theorem keys_assign_absent (slot : List String → String → Nat) (scripts : Registry σ)
    (name : String) (sc : Script σ) (h : name ∉ keys scripts) :
    keys (assign slot scripts name sc) =
      (keys scripts).take (slot (keys scripts) name) ++
        name :: (keys scripts).drop (slot (keys scripts) name) := by
  rw [assign_absent slot scripts name sc h]
  simp [keys, List.map_take, List.map_drop]

theorem find_assign_self (slot : List String → String → Nat) (scripts : Registry σ)
    (name : String) (sc : Script σ) (h : name ∉ keys scripts) :
    find (assign slot scripts name sc) name = some sc := by
  rw [assign_absent slot scripts name sc h]
  have htake : List.lookup name (scripts.take (slot (keys scripts) name)) = none := by
    rw [List.lookup_eq_none_iff]
    intro e he
    have : e.1 ≠ name := fun hk =>
      h (by rw [← hk]; exact List.mem_map_of_mem Prod.fst (List.mem_of_mem_take he))
    simpa using fun hk => this hk.symm
  simp [find, List.lookup_append, htake]

theorem find_assign_ne (slot : List String → String → Nat) (scripts : Registry σ)
    (name other : String) (sc : Script σ) (h : name ∉ keys scripts) (ho : other ≠ name) :
    find (assign slot scripts name sc) other = find scripts other := by
  rw [assign_absent slot scripts name sc h]
  have hne : (other == name) = false := by simpa using ho
  have hsplit : find scripts other =
      (List.lookup other (scripts.take (slot (keys scripts) name))).or
        (List.lookup other (scripts.drop (slot (keys scripts) name))) := by
    rw [← List.lookup_append, List.take_append_drop, find]
  rw [hsplit]
  simp [find, List.lookup_append, List.lookup_cons, hne]

theorem nodup_keys_assign (slot : List String → String → Nat) (scripts : Registry σ)
    (name : String) (sc : Script σ) (h : name ∉ keys scripts) (hn : (keys scripts).Nodup) :
    (keys (assign slot scripts name sc)).Nodup := by
  rw [keys_assign_absent slot scripts name sc h]
  have hperm : ((keys scripts).take (slot (keys scripts) name) ++
      name :: (keys scripts).drop (slot (keys scripts) name)).Perm (name :: keys scripts) := by
    have := @List.perm_middle _ name ((keys scripts).take (slot (keys scripts) name))
      ((keys scripts).drop (slot (keys scripts) name))
    rwa [List.take_append_drop] at this
  exact hperm.nodup_iff.2 (List.nodup_cons.2 ⟨h, hn⟩)

/-- What `loadScript` does to the registry, read off the spec-side outcome of the load. -/
theorem loadScript_registry (D : Decls) (w : World σ) (scripts : Registry σ)
    (rel_path : String) :
    (loadScript D w scripts rel_path).1 =
      match loaded D w rel_path with
      | none => scripts
      | some sc =>
        assign D.slot (erase scripts (D.pathBasename rel_path)) (D.pathBasename rel_path) sc := by
  unfold loadScript loaded
  cases hg : D.goodLuaFilename (D.pathBasename rel_path)
  · simp [hg]
  · cases hr : w.realpath rel_path with
    | none => simp [hg]
    | some path =>
      cases hc : w.checkFile path "frwxr-xr-x ~:*"
      · simp [hg, hc]
      · cases hk : construct w path with
        | error e => simp [hg, hc, hk]
        | ok sc => simp [hg, hc, hk, guarded_erase]

theorem unloadScript_eq (D : Decls) (scripts : Registry σ) (rel_path : String) :
    unloadScript D scripts rel_path = erase scripts (D.pathBasename rel_path) := by
  simp [unloadScript, guarded_erase]

/-! ## Lemmas on reloading -/

theorem execSeq_ptr (w : World σ) (ops : List LuaOp) :
    ∀ (sc : Script σ), (execSeq w ops sc).1.ptr = sc.ptr ∧
      (execSeq w ops sc).1.enabled = sc.enabled := by
  induction ops with
  | nil => intro sc; simp [execSeq]
  | cons op ops ih =>
    intro sc
    simp only [execSeq]
    rcases hx : w.exec op sc.L with ⟨res, L1⟩
    cases res with
    | none => simpa using ih { sc with L := L1 }
    | some e => simp

theorem reloadScript_ptr (w : World σ) (sc : Script σ) : (reloadScript w sc).1.ptr = sc.ptr := by
  unfold reloadScript
  have h := (execSeq_ptr w reloadSeq { sc with enabled := true }).1
  split
  · rename_i sc1 calls heq
    rw [heq] at h
    exact h
  · rename_i sc1 calls e heq
    rw [heq] at h
    exact h

theorem reloadAll_map (w : World σ) (scripts : Registry σ) :
    (reloadAll w scripts).1 = scripts.map (fun e => (e.1, (reloadScript w e.2).1)) := by
  induction scripts with
  | nil => rfl
  | cons e rest ih =>
    obtain ⟨name, sc⟩ := e
    simp [reloadAll, ih]

theorem keys_reloadAll (w : World σ) (scripts : Registry σ) :
    keys (reloadAll w scripts).1 = keys scripts := by
  rw [reloadAll_map]
  simp [keys, Function.comp_def]

theorem find_reloadAll (w : World σ) (scripts : Registry σ) (name : String) :
    find (reloadAll w scripts).1 name =
      (find scripts name).map (fun sc => (reloadScript w sc).1) := by
  rw [reloadAll_map]
  induction scripts with
  | nil => rfl
  | cons e rest ih =>
    obtain ⟨k, sc⟩ := e
    simp only [find, List.map_cons, List.lookup_cons] at ih ⊢
    cases hk : name == k <;> simp [ih]

theorem nodup_keys_erase (scripts : Registry σ) (name : String) (h : (keys scripts).Nodup) :
    (keys (erase scripts name)).Nodup := by
  rw [keys_erase]
  exact h.filter _

/-! ## Claims on loading and unloading -/

/-- C4. A load that does not complete leaves the registry as it was: when the file name is
not a good script name, or the real path does not resolve, or the permission validator
fails the file (as it does, by the policy of the spec, for a group-writable or
other-writable file), or constructing, binding or loading the new script raises, the
registry after `loadScript` is the registry before it. -/
theorem load_failure_unchanged (D : Decls) (w : World σ) (scripts : Registry σ)
    (rel_path : String)
    (h : D.goodLuaFilename (D.pathBasename rel_path) = false ∨
      w.realpath rel_path = none ∨
      (∃ path, w.realpath rel_path = some path ∧ w.checkFile path "frwxr-xr-x ~:*" = false) ∨
      (∃ path, w.realpath rel_path = some path ∧ PermissionGate w ∧
        w.st_mode path &&& 0o022 ≠ 0) ∨
      (∃ path e, w.realpath rel_path = some path ∧ construct w path = .error e)) :
    (loadScript D w scripts rel_path).1 = scripts := by
  have hnone : loaded D w rel_path = none := by
    unfold loaded
    rcases h with h | h | ⟨path, hp, hc⟩ | ⟨path, hp, hg, hm⟩ | ⟨path, e, hp, hc⟩
    · simp [h]
    · simp [h]
    · simp [hp, hc]
    · simp [hp, hg path hm]
    · simp [hp, hc]
  rw [loadScript_registry, hnone]

theorem sampleWorld_gate : PermissionGate sampleWorld := by
  intro path h
  by_cases hp : "/tmp/".data.isPrefixOf path.data = true
  · simp [sampleWorld, hp]
  · have : sampleWorld.st_mode path = 0o100755 := by
      show (if "/tmp/".data.isPrefixOf path.data = true then 0o100775 else 0o100755) = 0o100755
      rw [if_neg hp]
    rw [this] at h
    exact absurd (by decide) h

/-- Witness for C4: a file that is not a script name, a path that does not resolve, a file
under `/tmp/` (which the validator fails, and which is group-writable) and a script whose
initialisation raises each leave the registry `threeScripts` as it was. -/
theorem load_failure_unchanged_witness :
    (loadScript sampleDecls sampleWorld threeScripts "/s/notes.txt").1 = threeScripts ∧
      (loadScript sampleDecls { sampleWorld with realpath := fun _ => none }
        threeScripts "/s/a.lua").1 = threeScripts ∧
      (loadScript sampleDecls sampleWorld threeScripts "/tmp/a.lua").1 = threeScripts ∧
      sampleWorld.st_mode "/tmp/b.lua" &&& 0o022 = 0o020 ∧
      (loadScript sampleDecls sampleWorld threeScripts "/tmp/b.lua").1 = threeScripts ∧
      (loadScript sampleDecls { sampleWorld with new_Script := .ok ⟨7, 2, true⟩ }
        threeScripts "/s/a.lua").1 = threeScripts :=
  ⟨load_failure_unchanged sampleDecls sampleWorld threeScripts "/s/notes.txt"
      (Or.inl (by decide)),
    load_failure_unchanged sampleDecls { sampleWorld with realpath := fun _ => none }
      threeScripts "/s/a.lua" (Or.inr (Or.inl (by rfl))),
    load_failure_unchanged sampleDecls sampleWorld threeScripts "/tmp/a.lua"
      (Or.inr (Or.inr (Or.inl ⟨"/tmp/a.lua", by rfl, by decide⟩))),
    by decide,
    load_failure_unchanged sampleDecls sampleWorld threeScripts "/tmp/b.lua"
      (Or.inr (Or.inr (Or.inr (Or.inl ⟨"/tmp/b.lua", by rfl, sampleWorld_gate, by decide⟩)))),
    load_failure_unchanged sampleDecls { sampleWorld with new_Script := .ok ⟨7, 2, true⟩ }
      threeScripts "/s/a.lua"
      (Or.inr (Or.inr (Or.inr (Or.inr ⟨"/s/a.lua", sampleError, by rfl, by rfl⟩))))⟩

/-- C5. Registry identity: after any sequence of `loadScript`, `unloadScript` and
`reloadAll` from the empty registry, no two entries have the same name, and the entry under
a name is the script object of the most recent operation on that name that was not
rejected: none when that was an unload (or there was none), the script that the load
constructed when it was a load. -/
theorem registry_identity (D : Decls) (ops : List (Op σ)) (name : String) :
    (keys (runOps D ops)).Nodup ∧
      (find (runOps D ops) name).map (fun sc => sc.ptr) =
        (mostRecent D name ops.reverse).map (fun sc => sc.ptr) := by
  induction ops using List.reverseRecOn with
  | nil => simp [runOps, keys, find, mostRecent]
  | append_singleton ops op ih =>
    obtain ⟨hnd, hfind⟩ := ih
    have hrun : runOps D (ops ++ [op]) = Op.apply D (runOps D ops) op := by
      simp [runOps, List.foldl_append]
    rw [hrun, List.reverse_append, List.reverse_singleton, List.singleton_append]
    cases op with
    | load w rel_path =>
      simp only [Op.apply, mostRecent, loadScript_registry]
      cases hl : loaded D w rel_path with
      | none =>
        refine ⟨hnd, ?_⟩
        simp only [hfind]
        split <;> rfl
      | some sc =>
        have habs := not_mem_keys_erase (runOps D ops) (D.pathBasename rel_path)
        refine ⟨nodup_keys_assign D.slot _ _ sc habs (nodup_keys_erase _ _ hnd), ?_⟩
        by_cases hn : D.pathBasename rel_path = name
        · subst hn
          simp [find_assign_self D.slot _ _ sc habs]
        · have hne : name ≠ D.pathBasename rel_path := fun h => hn h.symm
          simp only [hn, if_false]
          rw [find_assign_ne D.slot _ _ name sc habs hne, find_erase_ne _ _ _ hne, hfind]
    | unload rel_path =>
      simp only [Op.apply, mostRecent, unloadScript_eq]
      refine ⟨nodup_keys_erase _ _ hnd, ?_⟩
      by_cases hn : D.pathBasename rel_path = name
      · subst hn
        simp [find_erase_self]
      · have hne : name ≠ D.pathBasename rel_path := fun h => hn h.symm
        simp only [hn, if_false]
        rw [find_erase_ne _ _ _ hne, hfind]
    | reloadAll w =>
      simp only [Op.apply, mostRecent, keys_reloadAll, find_reloadAll]
      refine ⟨hnd, ?_⟩
      rw [← hfind]
      cases find (runOps D ops) name with
      | none => rfl
      | some sc => simp [reloadScript_ptr]

/-- Witness for C5: after `sampleOps` the registry holds `b.lua` as the object of its only
accepted load (address 9) and `a.lua` as the object of its latest load (address 8), each
once; a name that was never loaded is not held. -/
theorem registry_identity_witness :
    (keys (runOps sampleDecls sampleOps)).Nodup ∧
      (find (runOps sampleDecls sampleOps) "a.lua").map (fun sc => sc.ptr) = some 8 ∧
      (find (runOps sampleDecls sampleOps) "b.lua").map (fun sc => sc.ptr) = some 9 ∧
      (find (runOps sampleDecls sampleOps) "c.lua").map (fun sc => sc.ptr) = none :=
  ⟨(registry_identity sampleDecls sampleOps "a.lua").1,
    (registry_identity sampleDecls sampleOps "a.lua").2.trans (by decide),
    (registry_identity sampleDecls sampleOps "b.lua").2.trans (by decide),
    (registry_identity sampleDecls sampleOps "c.lua").2.trans (by decide)⟩

/-- The function `loadScript` is `loadScriptWith` for the container that inserts at the
index `slot`. -/
theorem loadScript_eq_with (D : Decls) (w : World σ) (scripts : Registry σ)
    (rel_path : String) :
    loadScript D w scripts rel_path = loadScriptWith (insertAt D.slot) D w scripts rel_path :=
  rfl

/-- C10. The handler of file-system changes: a delete notification gives
`unloadScript(ev.name)`; a modify notification for a file that is not a directory gives
`unloadScript(pathBasename(ev.path))` followed by `loadScript(ev.path)`, and one for a
directory leaves the registry as it was; a create notification gives
`loadScript(ev.path)`. (The handler tests the mask for delete, then modify, then create.)
An exception of the load is caught in the handler, which returns `true` in every case. -/
theorem watch_handler (D : Decls) (w : World σ) (scripts : Registry σ) (ev : FSEvent) :
    (ev.mask &&& IN_DELETE ≠ 0 →
        (watchHandler D w scripts ev).scripts = unloadScript D scripts ev.name ∧
          (watchHandler D w scripts ev).caught = none) ∧
      (ev.mask &&& IN_DELETE = 0 → ev.mask &&& IN_MODIFY ≠ 0 → S_ISDIR ev.st_mode = false →
        (watchHandler D w scripts ev).scripts =
            (loadScript D w (unloadScript D scripts (D.pathBasename ev.path)) ev.path).1 ∧
          ∀ e, (loadScript D w (unloadScript D scripts (D.pathBasename ev.path)) ev.path).2 =
            .error e → (watchHandler D w scripts ev).caught = some e) ∧
      (ev.mask &&& IN_DELETE = 0 → ev.mask &&& IN_MODIFY ≠ 0 → S_ISDIR ev.st_mode = true →
        (watchHandler D w scripts ev).scripts = scripts) ∧
      (ev.mask &&& IN_DELETE = 0 → ev.mask &&& IN_MODIFY = 0 → ev.mask &&& IN_CREATE ≠ 0 →
        (watchHandler D w scripts ev).scripts = (loadScript D w scripts ev.path).1 ∧
          ∀ e, (loadScript D w scripts ev.path).2 = .error e →
            (watchHandler D w scripts ev).caught = some e) ∧
      (watchHandler D w scripts ev).ret = true := by
  have hres : ∀ r : Registry σ × Except Exception Unit,
      (match r.2 with
        | .ok _ => (⟨r.1, none, true⟩ : WatchResult σ)
        | .error e => ⟨r.1, some e, true⟩).scripts = r.1 ∧
      (∀ e, r.2 = .error e →
        (match r.2 with
          | .ok _ => (⟨r.1, none, true⟩ : WatchResult σ)
          | .error e => ⟨r.1, some e, true⟩).caught = some e) ∧
      (match r.2 with
        | .ok _ => (⟨r.1, none, true⟩ : WatchResult σ)
        | .error e => ⟨r.1, some e, true⟩).ret = true := by
    rintro ⟨r1, r2⟩
    cases r2 <;> simp
  refine ⟨?_, ?_, ?_, ?_, ?_⟩
  · intro hd
    simp [watchHandler, hd]
  · intro hd hm hdir
    have hbranch : watchHandler D w scripts ev =
        match (loadScript D w (unloadScript D scripts (D.pathBasename ev.path)) ev.path).2 with
        | .ok _ => ⟨(loadScript D w (unloadScript D scripts (D.pathBasename ev.path))
            ev.path).1, none, true⟩
        | .error e => ⟨(loadScript D w (unloadScript D scripts (D.pathBasename ev.path))
            ev.path).1, some e, true⟩ := by
      simp [watchHandler, hd, hm, hdir]
    rw [hbranch]
    exact ⟨(hres _).1, (hres _).2.1⟩
  · intro hd hm hdir
    simp [watchHandler, hd, hm, hdir]
  · intro hd hm hc
    have hbranch : watchHandler D w scripts ev =
        match (loadScript D w scripts ev.path).2 with
        | .ok _ => ⟨(loadScript D w scripts ev.path).1, none, true⟩
        | .error e => ⟨(loadScript D w scripts ev.path).1, some e, true⟩ := by
      simp [watchHandler, hd, hm, hc]
    rw [hbranch]
    exact ⟨(hres _).1, (hres _).2.1⟩
  · unfold watchHandler
    exact (hres _).2.2

/-- Witness for C10 on the registry `threeScripts`: a delete of `a.lua` removes it, a
modify of `a.lua` unloads it and loads the new script object (address 7), a modify of a
directory changes nothing, a create of `a.lua` when its path does not resolve raises a
`SystemError` that the handler catches, leaving the registry as it was. -/
theorem watch_handler_witness :
    keys (watchHandler sampleDecls sampleWorld threeScripts (fileEvent IN_DELETE)).scripts =
        ["b.lua", "c.lua"] ∧
      (watchHandler sampleDecls sampleWorld threeScripts (fileEvent IN_MODIFY)).scripts =
        [("b.lua", ⟨11, 1, true⟩), ("c.lua", ⟨12, 1, true⟩), ("a.lua", ⟨7, 0, true⟩)] ∧
      (watchHandler sampleDecls sampleWorld threeScripts dirEvent).scripts = threeScripts ∧
      (watchHandler sampleDecls { sampleWorld with realpath := fun _ => none } threeScripts
        (fileEvent IN_CREATE)).scripts = threeScripts ∧
      (watchHandler sampleDecls { sampleWorld with realpath := fun _ => none } threeScripts
        (fileEvent IN_CREATE)).caught = some (.system ⟨"Error in realpath: ", 2⟩) :=
  ⟨(congrArg keys ((watch_handler sampleDecls sampleWorld threeScripts
      (fileEvent IN_DELETE)).1 (by decide)).1).trans (by decide),
    ((watch_handler sampleDecls sampleWorld threeScripts (fileEvent IN_MODIFY)).2.1
      (by decide) (by decide) (by decide)).1.trans (by decide),
    (watch_handler sampleDecls sampleWorld threeScripts dirEvent).2.2.1
      (by decide) (by decide) (by decide),
    ((watch_handler sampleDecls { sampleWorld with realpath := fun _ => none } threeScripts
      (fileEvent IN_CREATE)).2.2.2.1 (by decide) (by decide) (by decide)).1.trans (by decide),
    ((watch_handler sampleDecls { sampleWorld with realpath := fun _ => none } threeScripts
      (fileEvent IN_CREATE)).2.2.2.1 (by decide) (by decide) (by decide)).2 _ (by rfl)⟩

end Hawck
